import Mathlib

/-!
Verification of the chessica chess engine core: a shallow embedding of the
board/piece data model, move application, FEN parsing and pseudo-legal move
generation (src/chess.rs, src/fen.rs, src/move.rs, src/move_gen.rs), with
theorems settling the specified properties.

Machine integers (`u16`, `u32`, `usize`) are embedded as `Nat`; all bit
values produced by the program fit far below any wrap-around, and the one
place where bounds matter (the 64-element piece array written during FEN
parsing) is embedded with an explicit bounds check whose failure is the
`panicked` outcome, mirroring Rust's panicking index operator.
-/

namespace Chessica

/-- `struct Piece(u16)` from src/chess.rs: a packed bit-flag scalar holding
presence, color and kind flags. -/
structure Piece where
  val : Nat
deriving DecidableEq

namespace Piece

/-- `Piece::NONE = 1 << 0` -/
def NONE : Nat := 1
/-- `Piece::WHITE = 1 << 1` -/
def WHITE : Nat := 2
/-- `Piece::BLACK = 1 << 2` -/
def BLACK : Nat := 4
/-- `Piece::COLOR_MASK = WHITE | BLACK` -/
def COLOR_MASK : Nat := WHITE ||| BLACK
/-- `Piece::PAWN = 1 << 3` -/
def PAWN : Nat := 8
/-- `Piece::KNIGHT = 1 << 4` -/
def KNIGHT : Nat := 16
/-- `Piece::BISHOP = 1 << 5` -/
def BISHOP : Nat := 32
/-- `Piece::ROOK = 1 << 6` -/
def ROOK : Nat := 64
/-- `Piece::QUEEN = 1 << 7` -/
def QUEEN : Nat := 128
/-- `Piece::KING = 1 << 8` -/
def KING : Nat := 256
/-- `Piece::KIND_MASK = !COLOR_MASK` (u16 complement of the two color bits). -/
def KIND_MASK : Nat := 65535 - COLOR_MASK
/-- `Piece::NO_PIECE = Piece(Piece::NONE)` -/
def NO_PIECE : Piece := ⟨NONE⟩

/-- `Piece::has(flag)`: `self.0 & flag != 0`. -/
def has (p : Piece) (flag : Nat) : Bool := p.val &&& flag != 0

/-- `Piece::color()`: `self.0 & COLOR_MASK`. -/
def color (p : Piece) : Nat := p.val &&& COLOR_MASK

/-- `Piece::kind()`: `self.0 & KIND_MASK`. -/
def kind (p : Piece) : Nat := p.val &&& KIND_MASK

end Piece

/-- `struct Board` from src/chess.rs: 64 pieces (big-endian ranks, index 0 =
a8, index 63 = h1), side to move, optional en-passant target square. The
Rust field `pieces: [Piece; 64]` is embedded as a list; theorems that need
the fixed size carry the hypothesis `pieces.length = 64`. -/
structure Board where
  pieces : List Piece
  turn : Nat
  en_passant_target : Option Nat
deriving DecidableEq

namespace Board

/-- `Board::NUM_FILES` -/
def NUM_FILES : Nat := 8
/-- `Board::NUM_RANKS` -/
def NUM_RANKS : Nat := 8

/-- `Board::BLACK_BACK_RANK.contains(&pos)` for the range `0..=7`. -/
def BLACK_BACK_RANK (pos : Nat) : Bool := pos ≤ 7
/-- `Board::BLACK_PAWN_RANK.contains(&pos)` for the range `8..=15`. -/
def BLACK_PAWN_RANK (pos : Nat) : Bool := 8 ≤ pos && pos ≤ 15
/-- `Board::WHITE_PAWN_RANK.contains(&pos)` for the range `48..=55`. -/
def WHITE_PAWN_RANK (pos : Nat) : Bool := 48 ≤ pos && pos ≤ 55
/-- `Board::WHITE_BACK_RANK.contains(&pos)` for the range `56..=63`. -/
def WHITE_BACK_RANK (pos : Nat) : Bool := 56 ≤ pos && pos ≤ 63

/-- `Board::rank_of` -/
def rank_of (pos : Nat) : Nat := pos / 8
/-- `Board::file_of` -/
def file_of (pos : Nat) : Nat := pos % 8
/-- `Board::square_index` -/
def square_index (file rank : Nat) : Nat := rank * 8 + file

/-- The `Index` impl: `board[i]` reads `self.pieces[i]`. All read sites in
the embedded code are in bounds whenever the board has its 64 squares, so
the out-of-range default is never observable there. -/
def get (b : Board) (i : Nat) : Piece := b.pieces.getD i Piece.NO_PIECE

/-- The `IndexMut` impl: `board[i] = p` writes `self.pieces[i]`. -/
def set (b : Board) (i : Nat) (p : Piece) : Board :=
  { b with pieces := b.pieces.set i p }

end Board

/-- `enum CastleKind` from src/chess.rs -/
inductive CastleKind
  | WhiteKingSide
  | WhiteQueenSide
  | BlackKingSide
  | BlackQueenSide
deriving DecidableEq

/-- `enum Move` from src/chess.rs -/
inductive Move
  | AB (a b : Nat)
  | Castle (kind : CastleKind)
  | EnPassant (a b capture : Nat)
  | Promotion (a b : Nat) (target : Piece)
deriving DecidableEq

/-- `Move::new_ab` -/
def Move.new_ab (a b : Nat) : Move := .AB a b

/-- The `ab_move!` macro in `Move::play`: `board[b] = board[a]; board[a] =
Piece::NO_PIECE`. -/
def abMove (a b : Nat) (board : Board) : Board :=
  (board.set b (board.get a)).set a Piece.NO_PIECE

/-- `CastleKind::WHITE_KING_KING_MOVE` -/
def CastleKind.WHITE_KING_KING_MOVE : Move := .AB 60 62
/-- `CastleKind::WHITE_KING_ROOK_MOVE` -/
def CastleKind.WHITE_KING_ROOK_MOVE : Move := .AB 63 61
/-- `CastleKind::WHITE_QUEEN_KING_MOVE` -/
def CastleKind.WHITE_QUEEN_KING_MOVE : Move := .AB 60 58
/-- `CastleKind::WHITE_QUEEN_ROOK_MOVE` -/
def CastleKind.WHITE_QUEEN_ROOK_MOVE : Move := .AB 56 59
/-- `CastleKind::BLACK_KING_KING_MOVE` -/
def CastleKind.BLACK_KING_KING_MOVE : Move := .AB 4 6
/-- `CastleKind::BLACK_KING_ROOK_MOVE` -/
def CastleKind.BLACK_KING_ROOK_MOVE : Move := .AB 7 5
/-- `CastleKind::BLACK_QUEEN_KING_MOVE` -/
def CastleKind.BLACK_QUEEN_KING_MOVE : Move := .AB 4 2
/-- `CastleKind::BLACK_QUEEN_ROOK_MOVE` -/
def CastleKind.BLACK_QUEEN_ROOK_MOVE : Move := .AB 0 3

/-- `CastleKind::play`: plays the fixed king move then the fixed rook move
of the kind, each as a plain `ab_move!` relocation (the constant `Move::AB`
pairs above). -/
def CastleKind.play (k : CastleKind) (board : Board) : Board :=
  match k with
  | .WhiteKingSide => abMove 63 61 (abMove 60 62 board)
  | .WhiteQueenSide => abMove 56 59 (abMove 60 58 board)
  | .BlackKingSide => abMove 7 5 (abMove 4 6 board)
  | .BlackQueenSide => abMove 0 3 (abMove 4 2 board)

/-- `Move::play` from src/chess.rs (mutation embedded as a board-to-board
function). -/
def Move.play (m : Move) (board : Board) : Board :=
  match m with
  | .AB a b => abMove a b board
  | .Castle kind => kind.play board
  | .EnPassant a b capture => (abMove a b board).set capture Piece.NO_PIECE
  | .Promotion a b target => (board.set a Piece.NO_PIECE).set b target

/-- `Move::capture` from src/chess.rs: takes the board by shared reference
(`&Board`), so it never mutates it; the embedding is accordingly a pure
function of the move and the board. -/
def Move.capture (m : Move) (board : Board) : Option Piece :=
  match m with
  | .AB _ b | .Promotion _ b _ =>
    if (board.get b).has Piece.NONE then none else some (board.get b)
  | .Castle _ => none
  | .EnPassant _ _ capture => some (board.get capture)

/-! ## Move generation (src/move_gen.rs) -/

/-- Modelled from the spec: `baked_moves.rs` (the `KNIGHT_MOVES` table) is
not under src/; §4.4 of the spec describes it as "a precomputed per-square
table of up to eight destination squares (the legal knight-offsets that
stay on the board from that square)". Destinations for one square. -/
def knightTargets (pos : Nat) : List Nat :=
  let r : Int := (pos : Int) / 8
  let f : Int := (pos : Int) % 8
  ([(-2, -1), (-2, 1), (-1, -2), (-1, 2), (1, -2), (1, 2), (2, -1), (2, 1)] :
      List (Int × Int)).filterMap
    (fun d =>
      let r2 := r + d.1
      let f2 := f + d.2
      if 0 ≤ r2 ∧ r2 ≤ 7 ∧ 0 ≤ f2 ∧ f2 ≤ 7 then some (r2 * 8 + f2).toNat else none)

/-- Modelled from the spec: the 64-entry `KNIGHT_MOVES` global table of
`baked_moves.rs` (absent from src/), one entry per board square. -/
def KNIGHT_MOVES : List (List Nat) := (List.range 64).map knightTargets

/-- The `pawn_gen!` macro of `gen_pseudo_legal_for_piece` instantiated with
offset op `-` and `Board::WHITE_PAWN_RANK` (the white-pawn branch): single
advance to `pos - 8` if empty; double advance to `pos - 8 - 8` if the pawn
is on the home rank and that square is empty (note: the source does not
re-check the intermediate square here); the two diagonal captures on an
enemy piece or the en-passant target. -/
def pawnMovesWhite (pos : Nat) (color : Nat) (board : Board) : List Move :=
  (if board.get (pos - 8) = Piece.NO_PIECE then [Move.new_ab pos (pos - 8)] else []) ++
  (if Board.WHITE_PAWN_RANK pos then
    (if board.get (pos - 8 - 8) = Piece.NO_PIECE then [Move.new_ab pos (pos - 8 - 8)]
     else [])
   else []) ++
  (if pos % 8 ≠ 0 then
    (if (board.get (pos - 1 - 8) ≠ Piece.NO_PIECE ∧ (board.get (pos - 1 - 8)).color ≠ color)
        ∨ board.en_passant_target = some (pos - 1 - 8) then
      [Move.new_ab pos (pos - 1 - 8)]
     else [])
   else []) ++
  (if pos % 8 ≠ 7 then
    (if (board.get (pos + 1 - 8) ≠ Piece.NO_PIECE ∧ (board.get (pos + 1 - 8)).color ≠ color)
        ∨ board.en_passant_target = some (pos + 1 - 8) then
      [Move.new_ab pos (pos + 1 - 8)]
     else [])
   else [])

/-- The `pawn_gen!` macro instantiated with offset op `+` and
`Board::BLACK_PAWN_RANK` (the black-pawn branch). -/
def pawnMovesBlack (pos : Nat) (color : Nat) (board : Board) : List Move :=
  (if board.get (pos + 8) = Piece.NO_PIECE then [Move.new_ab pos (pos + 8)] else []) ++
  (if Board.BLACK_PAWN_RANK pos then
    (if board.get (pos + 8 + 8) = Piece.NO_PIECE then [Move.new_ab pos (pos + 8 + 8)]
     else [])
   else []) ++
  (if pos % 8 ≠ 0 then
    (if (board.get (pos - 1 + 8) ≠ Piece.NO_PIECE ∧ (board.get (pos - 1 + 8)).color ≠ color)
        ∨ board.en_passant_target = some (pos - 1 + 8) then
      [Move.new_ab pos (pos - 1 + 8)]
     else [])
   else []) ++
  (if pos % 8 ≠ 7 then
    (if (board.get (pos + 1 + 8) ≠ Piece.NO_PIECE ∧ (board.get (pos + 1 + 8)).color ≠ color)
        ∨ board.en_passant_target = some (pos + 1 + 8) then
      [Move.new_ab pos (pos + 1 + 8)]
     else [])
   else [])

/-- The "moves going upwards" loop of `gen_rook_moves`:
`for i in 0..(NUM_RANKS - rank)`, pushing `square_index(file, rank + i)`
while its occupant's color differs from the mover's, `break` otherwise.
The `remaining` argument counts the iterations left. -/
def rookUpWalk (pos file rank color : Nat) (board : Board) : Nat → Nat → List Move
  | _, 0 => []
  | i, rem + 1 =>
    if (board.get (Board.square_index file (rank + i))).color ≠ color then
      Move.new_ab pos (Board.square_index file (rank + i)) ::
        rookUpWalk pos file rank color board (i + 1) rem
    else []

/-- The "moves going downwards" loop of `gen_rook_moves`: `for i in 0..rank`,
each iteration recomputing `square_index(file, rank)` (the loop variable is
unused in the source body) and pushing it when its occupant's color differs
from the mover's; no break. -/
def rookDownWalk (pos file rank color : Nat) (board : Board) : Nat → List Move
  | 0 => []
  | rem + 1 =>
    (if (board.get (Board.square_index file rank)).color ≠ color then
      [Move.new_ab pos (Board.square_index file rank)]
     else []) ++ rookDownWalk pos file rank color board rem

/-- `gen_rook_moves` from src/move_gen.rs. -/
def gen_rook_moves (pos my_color : Nat) (board : Board) : List Move :=
  rookUpWalk pos (Board.file_of pos) (Board.rank_of pos) my_color board 0
      (Board.NUM_RANKS - Board.rank_of pos) ++
    rookDownWalk pos (Board.file_of pos) (Board.rank_of pos) my_color board
      (Board.rank_of pos)

/-- `gen_pseudo_legal_for_piece` from src/move_gen.rs. `none` is the panic
outcome: the `assert!` in `pawn_gen!` for a pawn on a back rank, indexing
`KNIGHT_MOVES[pos]` out of range, and the catch-all arm for an unknown
piece kind. The pushed moves are returned as a list in push order. -/
def gen_pseudo_legal_for_piece (piece : Piece) (color : Nat) (pos : Nat) (board : Board) :
    Option (List Move) :=
  if piece.kind = Piece.PAWN then
    if Board.WHITE_BACK_RANK pos || Board.BLACK_BACK_RANK pos then none
    else if color = Piece.WHITE then some (pawnMovesWhite pos color board)
    else some (pawnMovesBlack pos color board)
  else if piece.kind = Piece.KNIGHT then
    match KNIGHT_MOVES.get? pos with
    | none => none
    | some targets =>
      some (targets.filterMap (fun target =>
        if (board.get target).color ≠ color then some (Move.new_ab pos target) else none))
  else if piece.kind = Piece.BISHOP then some []
  else if piece.kind = Piece.ROOK then some (gen_rook_moves pos color board)
  else if piece.kind = Piece.QUEEN then some []
  else if piece.kind = Piece.KING then some []
  else none

/-- The loop of `Board::gen_pseudo_legal` over `pieces.iter().enumerate()`:
squares whose piece matches the color dispatch to
`gen_pseudo_legal_for_piece`; the per-piece move lists are appended in scan
order. `none` propagates a panic of the per-piece generator. -/
def genLoop (board : Board) (color : Nat) : List (Nat × Piece) → Option (List Move)
  | [] => some []
  | (i, p) :: rest =>
    if p.color = color then
      match gen_pseudo_legal_for_piece p color i board with
      | none => none
      | some ms =>
        match genLoop board color rest with
        | none => none
        | some tail => some (ms ++ tail)
    else genLoop board color rest

/-- `Board::gen_pseudo_legal` from src/move_gen.rs. -/
def Board.gen_pseudo_legal (b : Board) (color : Nat) : Option (List Move) :=
  genLoop b color b.pieces.enum

/-! ## FEN parsing (src/chess.rs `Board::parse_fen` and src/fen.rs) -/

/-- `Board::STARTING_FEN` -/
def STARTING_FEN : String := "rnbqkbnr/pppppppp/8/8/8/8/PPPPPPPP/RNBQKBNR w KQkq - 0 1"

/-- Helper for `str::split_whitespace`: accumulate the current word
(reversed) and split at whitespace, emitting no empty words. -/
def splitWsAux : List Char → List Char → List (List Char)
  | [], acc => if acc.isEmpty then [] else [acc.reverse]
  | c :: rest, acc =>
    if c.isWhitespace then
      if acc.isEmpty then splitWsAux rest [] else acc.reverse :: splitWsAux rest []
    else splitWsAux rest (c :: acc)

/-- `str::split_whitespace` on the character list of the input. -/
def splitWhitespace (cs : List Char) : List (List Char) := splitWsAux cs []

/-- Result of classifying one character of the piece-placement field, the
`match c` of `parse_fen` / `parse_position`: a piece value to write, an
index advance (the `continue` arms for digits and `/`), or an error. The
source error strings are `format!` messages naming the offending character;
the embedding keeps fixed texts. -/
inductive FenCharStep
  | piece (val : Nat)
  | advance (newIndex : Nat)
  | fail (msg : String)
deriving DecidableEq

/-- The `match c` body shared (character for character) by the placement
loops of `Board::parse_fen` (src/chess.rs) and `parse_position`
(src/fen.rs): the twelve piece letters; then `d if d.is_digit(NUM_FILES + 1)`,
i.e. radix-9 digits 0..=8, erroring when the digit exceeds the empty squares
left in the current rank; then `/`, erroring when the rank is not complete;
any other character errors. -/
def fenCharStep (c : Char) (index : Nat) : FenCharStep :=
  if c = 'P' then .piece (Piece.WHITE ||| Piece.PAWN)
  else if c = 'N' then .piece (Piece.WHITE ||| Piece.KNIGHT)
  else if c = 'B' then .piece (Piece.WHITE ||| Piece.BISHOP)
  else if c = 'R' then .piece (Piece.WHITE ||| Piece.ROOK)
  else if c = 'Q' then .piece (Piece.WHITE ||| Piece.QUEEN)
  else if c = 'K' then .piece (Piece.WHITE ||| Piece.KING)
  else if c = 'p' then .piece (Piece.BLACK ||| Piece.PAWN)
  else if c = 'n' then .piece (Piece.BLACK ||| Piece.KNIGHT)
  else if c = 'b' then .piece (Piece.BLACK ||| Piece.BISHOP)
  else if c = 'r' then .piece (Piece.BLACK ||| Piece.ROOK)
  else if c = 'q' then .piece (Piece.BLACK ||| Piece.QUEEN)
  else if c = 'k' then .piece (Piece.BLACK ||| Piece.KING)
  else if 48 ≤ c.toNat ∧ c.toNat ≤ 56 then
    if c.toNat - 48 > Board.NUM_FILES - index % Board.NUM_FILES then
      .fail "there are not that many empty fields left in the current rank!"
    else .advance (index + (c.toNat - 48))
  else if c = '/' then
    if index % 8 ≠ 0 then .fail "rank not yet done at rank delimiter"
    else .advance index
  else .fail "unexpected character in position field!"

/-- Outcome of the piece-placement loop: the filled piece array, a parse
error, or a panic (the Rust out-of-bounds write `pieces[index]` when the
field describes more than 64 squares). -/
inductive PosResult
  | ok (pieces : List Piece)
  | err (msg : String)
  | panicked
deriving DecidableEq

/-- The `for c in pos_field.chars()` loop of `Board::parse_fen` /
`parse_position`: each piece letter writes `pieces[index]` (panicking when
`index` is outside the 64-element array, as the Rust indexing does) and
increments the index; digit and `/` arms `continue` with the stepped index;
an error arm aborts the whole parse. -/
def parseFenLoop : List Char → Nat → List Piece → PosResult
  | [], _, pieces => .ok pieces
  | c :: rest, index, pieces =>
    match fenCharStep c index with
    | .piece v =>
      if index < 64 then parseFenLoop rest (index + 1) (pieces.set index ⟨v⟩)
      else .panicked
    | .advance newIndex => parseFenLoop rest newIndex pieces
    | .fail msg => .err msg

/-- Outcome of `Board::parse_fen`: `Ok(Board)`, `Err(String)`, or a panic
escaping the `Result`. -/
inductive FenResult
  | ok (board : Board)
  | err (msg : String)
  | panicked
deriving DecidableEq

/-- `Board::parse_fen` from src/chess.rs: splits at whitespace, requires
the placement and turn fields, decodes the placement into the 64-piece
array, requires the turn field to be exactly `w` or `b`, ignores all later
fields, and always leaves `en_passant_target` as `None`. -/
def Board.parse_fen (fen : String) : FenResult :=
  match splitWhitespace fen.data with
  | [] => .err "non-empty fen string expected"
  | [_] => .err "fen string expected to have at least first two fields"
  | pos_field :: turn_field :: _ =>
    match parseFenLoop pos_field 0 (List.replicate 64 Piece.NO_PIECE) with
    | .panicked => .panicked
    | .err msg => .err msg
    | .ok pieces =>
      match turn_field with
      | [c] =>
        if c = 'w' then .ok ⟨pieces, Piece.WHITE, none⟩
        else if c = 'b' then .ok ⟨pieces, Piece.BLACK, none⟩
        else .err "expected w or b as second field!"
      | _ => .err "illegal second (turn) field; one of w or b expected"

namespace fen

/-- `CastleType::BIT_BLACK_LONG` (src/move.rs) -/
def BIT_BLACK_LONG : Nat := 1
/-- `CastleType::BIT_BLACK_SHORT` (src/move.rs) -/
def BIT_BLACK_SHORT : Nat := 2
/-- `CastleType::BIT_WHITE_LONG` (src/move.rs) -/
def BIT_WHITE_LONG : Nat := 4
/-- `CastleType::BIT_WHITE_SHORT` (src/move.rs) -/
def BIT_WHITE_SHORT : Nat := 8

/-- Modelled from the spec: `Board::new(pieces, turn, castle_rights)`
called by `parse_board` (src/fen.rs) is not under src/; per §3 the Board it
builds carries the 64-piece array, the side to move and the castling-rights
bitmask, so `Board::new` is embedded as the plain record constructor of
this structure. -/
structure FenBoard where
  pieces : List Piece
  turn : Nat
  castle_rights : Nat
deriving DecidableEq

/-- `parse_position` from src/fen.rs: the same placement loop as
`Board::parse_fen`'s, character for character (only the `format!` quoting
of its error messages differs), starting from an all-`NONE` array. -/
def parse_position (field : List Char) : PosResult :=
  parseFenLoop field 0 (List.replicate 64 Piece.NO_PIECE)

/-- `parse_turn_field` from src/fen.rs. -/
def parse_turn_field (field : List Char) : Except String Nat :=
  match field with
  | [c] =>
    if c = 'w' then .ok Piece.WHITE
    else if c = 'b' then .ok Piece.BLACK
    else .error "expected w or b as second field!"
  | _ => .error "illegal second (turn) field; one of w or b expected"

/-- The `for c in chars` loop of `parse_castle_field` with the `add_once!`
macro: each letter maps to its `CastleType` bit and a repeated bit is an
error. -/
def castleLoop : List Char → Nat → Except String Nat
  | [], result => .ok result
  | c :: rest, result =>
    if c = 'q' then
      if result &&& BIT_BLACK_LONG = BIT_BLACK_LONG then
        .error "fen contains castle right twice!"
      else castleLoop rest (result ||| BIT_BLACK_LONG)
    else if c = 'k' then
      if result &&& BIT_BLACK_SHORT = BIT_BLACK_SHORT then
        .error "fen contains castle right twice!"
      else castleLoop rest (result ||| BIT_BLACK_SHORT)
    else if c = 'Q' then
      if result &&& BIT_WHITE_LONG = BIT_WHITE_LONG then
        .error "fen contains castle right twice!"
      else castleLoop rest (result ||| BIT_WHITE_LONG)
    else if c = 'K' then
      if result &&& BIT_WHITE_SHORT = BIT_WHITE_SHORT then
        .error "fen contains castle right twice!"
      else castleLoop rest (result ||| BIT_WHITE_SHORT)
    else .error "unexpected character in castle rights field"

/-- `parse_castle_field` from src/fen.rs: a missing field defaults to all
four rights, a literal `-` to none, otherwise the letters are accumulated
with duplicate detection. -/
def parse_castle_field (field : Option (List Char)) : Except String Nat :=
  match field with
  | none => .ok (BIT_BLACK_LONG ||| BIT_BLACK_SHORT ||| BIT_WHITE_LONG ||| BIT_WHITE_SHORT)
  | some f =>
    if f.length = 1 ∧ f.head? = some '-' then .ok 0
    else castleLoop f 0

/-- Outcome of `parse_board`: `Ok(Board)`, `Err(String)`, or a panic. -/
inductive BoardResult
  | ok (board : FenBoard)
  | err (msg : String)
  | panicked
deriving DecidableEq

/-- `parse_board` from src/fen.rs: position and turn fields are mandatory,
the castling field optional; the three field parsers run in order and the
first failure aborts. -/
def parse_board (s : String) : BoardResult :=
  match splitWhitespace s.data with
  | [] => .err "non-empty fen string expected"
  | [_] => .err "fen string expected to have at least first two fields"
  | pos_field :: turn_field :: rest =>
    match parse_position pos_field with
    | .panicked => .panicked
    | .err m => .err m
    | .ok pieces =>
      match parse_turn_field turn_field with
      | .error m => .err m
      | .ok turn =>
        match parse_castle_field rest.head? with
        | .error m => .err m
        | .ok cr => .ok ⟨pieces, turn, cr⟩

/-- Whether a `parse_board` outcome is the `Err` case. -/
def BoardResult.isErr : BoardResult → Bool
  | .err _ => true
  | _ => false

end fen

/-! ## Statement-level helpers and test fixtures -/

/-- Projects the successfully parsed board out of a `parse_fen` outcome. -/
def FenResult.board? : FenResult → Option Board
  | .ok b => some b
  | _ => none

/-- Whether a move is the plain `Move::AB` variant. -/
def Move.isAB : Move → Bool
  | .AB _ _ => true
  | _ => false

/-- The two diagonally-forward-adjacent squares of a pawn, as the claims
state them: forward is toward decreasing indices for white and increasing
for black, and a diagonal square exists only when the file does not wrap
across the a/h edge. -/
def diagForward (color pos c : Nat) : Prop :=
  if color = Piece.WHITE then
    (pos % 8 ≠ 0 ∧ c = pos - 1 - 8) ∨ (pos % 8 ≠ 7 ∧ c = pos + 1 - 8)
  else
    (pos % 8 ≠ 0 ∧ c = pos - 1 + 8) ∨ (pos % 8 ≠ 7 ∧ c = pos + 1 + 8)

instance (color pos c : Nat) : Decidable (diagForward color pos c) := by
  unfold diagForward
  infer_instance

/-- A single pawn push of white from its home rank: origin on 48..=55,
destination one rank forward (8 indices down). -/
def isStartSinglePush : Move → Bool
  | .AB a b => decide (48 ≤ a ∧ a ≤ 55 ∧ b + 8 = a)
  | _ => false

/-- A double pawn push of white from its home rank: origin on 48..=55,
destination two ranks forward (16 indices down). -/
def isStartDoublePush : Move → Bool
  | .AB a b => decide (48 ≤ a ∧ a ≤ 55 ∧ b + 16 = a)
  | _ => false

/-- A knight move of the starting position: origin b1 (57) or g1 (62). -/
def isStartKnightMove : Move → Bool
  | .AB a _ => decide (a = 57 ∨ a = 62)
  | _ => false

/-- Fixture: an otherwise empty board with a single white pawn on a2
(index 48), white to move. -/
def pawnBoard48 : Board :=
  ⟨(List.replicate 64 Piece.NO_PIECE).set 48 ⟨Piece.WHITE ||| Piece.PAWN⟩,
    Piece.WHITE, none⟩

/-- Fixture: an otherwise empty board with a single white pawn on b2
(index 49), white to move, en-passant target a3 (index 40). -/
def epBoard49 : Board :=
  ⟨(List.replicate 64 Piece.NO_PIECE).set 49 ⟨Piece.WHITE ||| Piece.PAWN⟩,
    Piece.WHITE, some 40⟩

/-! ## Theorems -/

/-- Claim C1 (code bug): double pushes are claimed to require an empty
intermediate square, but the source's double-advance check is not nested
inside the single-advance emptiness check. On the board parsed from
`8/8/8/8/8/n7/P7/8 w` the white pawn on a2 (index 48) has its single-push
square a3 (index 40) occupied by the black knight, yet the generator still
produces the double push a2-a4 (`AB 48 32`) — and nothing else. -/
theorem c1_blocked_double_push_is_generated :
    ((Board.parse_fen "8/8/8/8/8/n7/P7/8 w").board?.map
      (fun b => (b.get 40, b.gen_pseudo_legal Piece.WHITE))) =
    some (⟨Piece.BLACK ||| Piece.KNIGHT⟩, some [Move.AB 48 32]) := by decide

/-- Claim C2 (code bug): rook generation is claimed to walk outward in the
four orthogonal directions, but the source's first loop starts at the
rook's own square (whose occupant has the mover's color) and `break`s
immediately, the second loop recomputes the origin square every iteration,
and the east/west directions are absent entirely. On the board parsed from
`8/8/8/8/4R3/8/8/8 w` — a lone white rook on e4 (index 36), 14 orthogonal
destinations available — the generator produces no moves at all. -/
theorem c2_rook_generates_no_moves :
    ((Board.parse_fen "8/8/8/8/4R3/8/8/8 w").board?.map
      (fun b => (b.get 36, b.gen_pseudo_legal Piece.WHITE))) =
    some (⟨Piece.WHITE ||| Piece.ROOK⟩, some []) := by decide

/-- Claim C4: parsing the starting-position FEN and generating white's
pseudo-legal moves yields exactly 20 moves — 8 single pawn pushes, 8
double pawn pushes and 4 knight moves (origins b1/g1). -/
theorem c4_start_position_twenty_moves :
    ((Board.parse_fen STARTING_FEN).board?.map
      (fun b => (b.gen_pseudo_legal Piece.WHITE).map
        (fun l => (l.length, (l.filter isStartSinglePush).length,
          (l.filter isStartDoublePush).length, (l.filter isStartKnightMove).length)))) =
    some (some (20, 8, 8, 4)) := by decide

/-- Claim C5: the four malformed FEN fixtures — missing turn field, digit 9
in the placement field, invalid turn character, duplicated castling-rights
letter — all make `parse_board` (src/fen.rs, the parser that has a
castling-rights field) return `Err` and never a board. -/
theorem c5_malformed_fens_all_err :
    (fen.parse_board "8/8/8/8/8/8/8").isErr = true ∧
    (fen.parse_board "rnbqkbnr/pppppppp/9/8/8/8/PPPPPPPP/RNBQKBNR w").isErr = true ∧
    (fen.parse_board "rnbqkbnr/pppppppp/8/8/8/8/PPPPPPPP/RNBQKBNR x").isErr = true ∧
    (fen.parse_board "rnbqkbnr/pppppppp/8/8/8/8/PPPPPPPP/RNBQKBNR w KQKQ").isErr = true := by
  decide

/-- Claim C6, counterexample: the claim says any placement character
outside the twelve piece letters, `/` and the digits 1–8 fails the parse,
but the source accepts radix-9 digits, i.e. also the digit `0` (which
advances the index by zero): a FEN whose placement field starts with `0`
parses successfully. -/
theorem c6_digit_zero_is_accepted :
    Board.parse_fen "08/8/8/8/8/8/8/8 w" =
    .ok ⟨List.replicate 64 Piece.NO_PIECE, Piece.WHITE, none⟩ := by decide

/-- Claim C9 (code bug): `parse_fen` is claimed never to panic, but the
running index of the placement loop is unbounded and each piece letter is
written at `pieces[index]`, so a field describing more than 64 squares —
here nine full ranks of pawns — indexes the 64-element array out of bounds
and panics instead of returning `Err`. -/
theorem c9_parse_fen_panics_beyond_64_squares :
    Board.parse_fen
      "PPPPPPPP/PPPPPPPP/PPPPPPPP/PPPPPPPP/PPPPPPPP/PPPPPPPP/PPPPPPPP/PPPPPPPP/PPPPPPPP w" =
    .panicked := by decide

/-- Claim C8: `Move::capture` takes the board immutably (the embedding is a
pure function, so the board is untouched) and returns `None` for a castle,
the destination occupant of a plain or promotion move when the destination
is occupied and `None` when it is empty, and the occupant of the `capture`
square of an en-passant move — a pawn under the generator's construction
precondition. -/
theorem c8_capture_spec (board : Board) :
    (∀ k, Move.capture (.Castle k) board = none) ∧
    (∀ a b, Move.capture (.AB a b) board =
      (if (board.get b).has Piece.NONE then none else some (board.get b))) ∧
    (∀ a b target, Move.capture (.Promotion a b target) board =
      (if (board.get b).has Piece.NONE then none else some (board.get b))) ∧
    (∀ a b cap, (board.get cap).kind = Piece.PAWN →
      Move.capture (.EnPassant a b cap) board = some (board.get cap)) :=
  ⟨fun _ => rfl, fun _ _ => rfl, fun _ _ _ => rfl, fun _ _ _ _ => rfl⟩

/-- Witness for C8 at a concrete board: the fixture board holds a white
pawn on index 48, and capturing it en passant reports exactly that pawn. -/
theorem c8_capture_spec_witness :
    Move.capture (.EnPassant 41 32 48) pawnBoard48 = some (pawnBoard48.get 48) :=
  (c8_capture_spec pawnBoard48).2.2.2 41 32 48 (by decide)

lemma getD_set_self (l : List Piece) (i : Nat) (v d : Piece) (h : i < l.length) :
    (l.set i v).getD i d = v := by
  simp [List.getD, List.getElem?_set, h]

lemma getD_set_ne (l : List Piece) (i j : Nat) (v d : Piece) (h : j ≠ i) :
    (l.set j v).getD i d = l.getD i d := by
  simp [List.getD, List.getElem?_set, h]

lemma getD_set_NO (l : List Piece) (i : Nat) :
    ((l.set i Piece.NO_PIECE)[i]?).getD Piece.NO_PIECE = Piece.NO_PIECE := by
  rcases Nat.lt_or_ge i l.length with hi | hi
  · simp [List.getElem?_set, hi]
  · have hn : (l.set i Piece.NO_PIECE)[i]? = none :=
      List.getElem?_eq_none (by simpa using hi)
    simp [hn]

/-- Two `ab_move!` relocations on pairwise distinct squares of a 64-square
board: each destination receives its source's occupant, both sources are
cleared, and every other square keeps its occupant. -/
lemma castle_pair_spec (board : Board) (h : board.pieces.length = 64)
    (ka kb ra rb : Nat) (hkb : kb < 64) (hrb : rb < 64)
    (h1 : ka ≠ kb) (h2 : ka ≠ ra) (h3 : ka ≠ rb) (h4 : kb ≠ ra) (h5 : kb ≠ rb)
    (h6 : ra ≠ rb) :
    (abMove ra rb (abMove ka kb board)).get kb = board.get ka ∧
    (abMove ra rb (abMove ka kb board)).get rb = board.get ra ∧
    (abMove ra rb (abMove ka kb board)).get ka = Piece.NO_PIECE ∧
    (abMove ra rb (abMove ka kb board)).get ra = Piece.NO_PIECE ∧
    (∀ i, i ≠ ka → i ≠ kb → i ≠ ra → i ≠ rb →
      (abMove ra rb (abMove ka kb board)).get i = board.get i) := by
  refine ⟨?_, ?_, ?_, ?_, ?_⟩
  · simp [abMove, Board.get, Board.set, getD_set_ne, getD_set_self, h, hkb,
      h1, h4, h5, Ne.symm h4, Ne.symm h5]
  · simp [abMove, Board.get, Board.set, getD_set_ne, getD_set_self, h, hrb,
      h2, h3, h4, h6, Ne.symm h3, Ne.symm h6]
  · simp [abMove, Board.get, Board.set, getD_set_ne, getD_set_self, getD_set_NO, h,
      h1, h2, h3, Ne.symm h2, Ne.symm h3]
  · simp [abMove, Board.get, Board.set, getD_set_ne, getD_set_self, getD_set_NO, h, h6]
  · intro i hia hib hic hid
    simp [abMove, Board.get, Board.set, getD_set_ne, getD_set_self,
      Ne.symm hia, Ne.symm hib, Ne.symm hic, Ne.symm hid]

/-- Claim C7: on any 64-square board, playing a castle move performs
exactly the two fixed relocations of its kind — white king-side 60→62 and
63→61, white queen-side 60→58 and 56→59, black king-side 4→6 and 7→5,
black queen-side 4→2 and 0→3 — clearing both source squares and leaving
every square not involved in the two relocations unchanged. -/
theorem c7_castle_play_spec (board : Board) (h : board.pieces.length = 64) :
    (((Move.Castle .WhiteKingSide).play board).get 62 = board.get 60 ∧
     ((Move.Castle .WhiteKingSide).play board).get 61 = board.get 63 ∧
     ((Move.Castle .WhiteKingSide).play board).get 60 = Piece.NO_PIECE ∧
     ((Move.Castle .WhiteKingSide).play board).get 63 = Piece.NO_PIECE ∧
     (∀ i, i ≠ 60 → i ≠ 62 → i ≠ 63 → i ≠ 61 →
       ((Move.Castle .WhiteKingSide).play board).get i = board.get i)) ∧
    (((Move.Castle .WhiteQueenSide).play board).get 58 = board.get 60 ∧
     ((Move.Castle .WhiteQueenSide).play board).get 59 = board.get 56 ∧
     ((Move.Castle .WhiteQueenSide).play board).get 60 = Piece.NO_PIECE ∧
     ((Move.Castle .WhiteQueenSide).play board).get 56 = Piece.NO_PIECE ∧
     (∀ i, i ≠ 60 → i ≠ 58 → i ≠ 56 → i ≠ 59 →
       ((Move.Castle .WhiteQueenSide).play board).get i = board.get i)) ∧
    (((Move.Castle .BlackKingSide).play board).get 6 = board.get 4 ∧
     ((Move.Castle .BlackKingSide).play board).get 5 = board.get 7 ∧
     ((Move.Castle .BlackKingSide).play board).get 4 = Piece.NO_PIECE ∧
     ((Move.Castle .BlackKingSide).play board).get 7 = Piece.NO_PIECE ∧
     (∀ i, i ≠ 4 → i ≠ 6 → i ≠ 7 → i ≠ 5 →
       ((Move.Castle .BlackKingSide).play board).get i = board.get i)) ∧
    (((Move.Castle .BlackQueenSide).play board).get 2 = board.get 4 ∧
     ((Move.Castle .BlackQueenSide).play board).get 3 = board.get 0 ∧
     ((Move.Castle .BlackQueenSide).play board).get 4 = Piece.NO_PIECE ∧
     ((Move.Castle .BlackQueenSide).play board).get 0 = Piece.NO_PIECE ∧
     (∀ i, i ≠ 4 → i ≠ 2 → i ≠ 0 → i ≠ 3 →
       ((Move.Castle .BlackQueenSide).play board).get i = board.get i)) := by
  have w := castle_pair_spec board h 60 62 63 61 (by decide) (by decide)
    (by decide) (by decide) (by decide) (by decide) (by decide) (by decide)
  have wq := castle_pair_spec board h 60 58 56 59 (by decide) (by decide)
    (by decide) (by decide) (by decide) (by decide) (by decide) (by decide)
  have bk := castle_pair_spec board h 4 6 7 5 (by decide) (by decide)
    (by decide) (by decide) (by decide) (by decide) (by decide) (by decide)
  have bq := castle_pair_spec board h 4 2 0 3 (by decide) (by decide)
    (by decide) (by decide) (by decide) (by decide) (by decide) (by decide)
  exact ⟨w, wq, bk, bq⟩

/-- Witness for C7 on a concrete 64-square board: after white's king-side
castle the king's destination square holds what stood on e1. -/
theorem c7_castle_play_spec_witness :
    ((Move.Castle CastleKind.WhiteKingSide).play pawnBoard48).get 62 = pawnBoard48.get 60 :=
  (c7_castle_play_spec pawnBoard48 (by decide)).1.1

lemma pawnMovesWhite_isAB (pos color : Nat) (board : Board) :
    ∀ m ∈ pawnMovesWhite pos color board, m.isAB = true := by
  intro m hm
  simp only [pawnMovesWhite, List.mem_append] at hm
  rcases hm with ((hm | hm) | hm) | hm <;> (repeat split at hm) <;>
    simp_all [Move.new_ab, Move.isAB]

lemma pawnMovesBlack_isAB (pos color : Nat) (board : Board) :
    ∀ m ∈ pawnMovesBlack pos color board, m.isAB = true := by
  intro m hm
  simp only [pawnMovesBlack, List.mem_append] at hm
  rcases hm with ((hm | hm) | hm) | hm <;> (repeat split at hm) <;>
    simp_all [Move.new_ab, Move.isAB]

lemma knightMoves_isAB (targets : List Nat) (pos color : Nat) (board : Board) :
    ∀ m ∈ targets.filterMap (fun target =>
      if (board.get target).color ≠ color then some (Move.new_ab pos target) else none),
      m.isAB = true := by
  intro m hm
  simp only [List.mem_filterMap] at hm
  obtain ⟨t, _, ht⟩ := hm
  split at ht
  · injection ht with ht
    subst ht
    rfl
  · exact Option.noConfusion ht

lemma rookUpWalk_isAB (pos file rank color : Nat) (board : Board) :
    ∀ rem i, ∀ m ∈ rookUpWalk pos file rank color board i rem, m.isAB = true := by
  intro rem
  induction rem with
  | zero => intro i m hm; simp [rookUpWalk] at hm
  | succ n ih =>
    intro i m hm
    simp only [rookUpWalk] at hm
    split at hm
    · rcases List.mem_cons.mp hm with h | h
      · subst h; rfl
      · exact ih _ _ h
    · simp at hm

lemma rookDownWalk_isAB (pos file rank color : Nat) (board : Board) :
    ∀ rem, ∀ m ∈ rookDownWalk pos file rank color board rem, m.isAB = true := by
  intro rem
  induction rem with
  | zero => intro m hm; simp [rookDownWalk] at hm
  | succ n ih =>
    intro m hm
    simp only [rookDownWalk, List.mem_append] at hm
    rcases hm with hm | hm
    · split at hm <;> simp_all [Move.new_ab, Move.isAB]
    · exact ih _ hm

lemma gen_rook_moves_isAB (pos color : Nat) (board : Board) :
    ∀ m ∈ gen_rook_moves pos color board, m.isAB = true := by
  intro m hm
  simp only [gen_rook_moves, List.mem_append] at hm
  rcases hm with hm | hm
  · exact rookUpWalk_isAB _ _ _ _ _ _ _ _ hm
  · exact rookDownWalk_isAB _ _ _ _ _ _ _ hm

lemma gen_pseudo_legal_for_piece_isAB (piece : Piece) (color pos : Nat) (board : Board)
    (l : List Move) (h : gen_pseudo_legal_for_piece piece color pos board = some l) :
    ∀ m ∈ l, m.isAB = true := by
  unfold gen_pseudo_legal_for_piece at h
  split_ifs at h
  all_goals try exact Option.noConfusion h
  all_goals try split at h
  all_goals try exact Option.noConfusion h
  all_goals injection h with h
  all_goals subst h
  all_goals first
    | exact pawnMovesWhite_isAB pos color board
    | exact pawnMovesBlack_isAB pos color board
    | exact knightMoves_isAB _ pos color board
    | exact gen_rook_moves_isAB pos color board
    | simp

lemma genLoop_isAB (board : Board) (color : Nat) :
    ∀ entries ms, genLoop board color entries = some ms → ∀ m ∈ ms, m.isAB = true := by
  intro entries
  induction entries with
  | nil => intro ms h m hm; simp [genLoop] at h; subst h; simp at hm
  | cons e rest ih =>
    intro ms h m hm
    obtain ⟨i, p⟩ := e
    simp only [genLoop] at h
    split at h
    · split at h
      · exact Option.noConfusion h
      · split at h
        · exact Option.noConfusion h
        · injection h with h
          subst h
          rcases List.mem_append.mp hm with hm2 | hm2
          · exact gen_pseudo_legal_for_piece_isAB p color i board _ (by assumption) m hm2
          · exact ih _ (by assumption) m hm2
    · exact ih _ h m hm

/-- Claim C10: every move a successful `gen_pseudo_legal` run returns is
the plain `Move::AB` variant — the `Castle`, `EnPassant` and `Promotion`
variants are never produced (every push site in the generator calls
`Move::new_ab`), so in particular a move onto the en-passant target square
is a plain relocation whose application does not clear the captured pawn's
square. -/
theorem c10_gen_only_plain_AB (board : Board) (color : Nat) (ms : List Move)
    (h : board.gen_pseudo_legal color = some ms) : ∀ m ∈ ms, m.isAB = true :=
  genLoop_isAB board color board.pieces.enum ms h

/-- Witness for C10 on a concrete board: the fixture pawn board generates
exactly the two pushes, and the theorem marks the first as a plain AB. -/
theorem c10_gen_only_plain_AB_witness : (Move.AB 48 40).isAB = true :=
  c10_gen_only_plain_AB pawnBoard48 Piece.WHITE [Move.AB 48 40, Move.AB 48 32]
    (by decide) (Move.AB 48 40) (by decide)

lemma mem_ite_singleton_iff {c : Prop} [Decidable c] {m x : Move} :
    (m ∈ if c then [x] else []) ↔ c ∧ m = x := by
  split <;> simp_all

lemma mem_ite_ite_singleton_iff {c1 c2 : Prop} [Decidable c1] [Decidable c2] {m x : Move} :
    (m ∈ if c1 then (if c2 then [x] else []) else []) ↔ c1 ∧ c2 ∧ m = x := by
  by_cases h1 : c1 <;> by_cases h2 : c2 <;> simp [h1, h2]

/-- Membership in the white pawn move list, spelled out as the four push
conditions of the source. -/
lemma mem_pawnMovesWhite_iff (pos color : Nat) (board : Board) (m : Move) :
    m ∈ pawnMovesWhite pos color board ↔
      (board.get (pos - 8) = Piece.NO_PIECE ∧ m = Move.AB pos (pos - 8)) ∨
      ((48 ≤ pos ∧ pos ≤ 55) ∧ board.get (pos - 8 - 8) = Piece.NO_PIECE ∧
        m = Move.AB pos (pos - 8 - 8)) ∨
      (pos % 8 ≠ 0 ∧
        ((board.get (pos - 1 - 8) ≠ Piece.NO_PIECE ∧ (board.get (pos - 1 - 8)).color ≠ color) ∨
          board.en_passant_target = some (pos - 1 - 8)) ∧
        m = Move.AB pos (pos - 1 - 8)) ∨
      (pos % 8 ≠ 7 ∧
        ((board.get (pos + 1 - 8) ≠ Piece.NO_PIECE ∧ (board.get (pos + 1 - 8)).color ≠ color) ∨
          board.en_passant_target = some (pos + 1 - 8)) ∧
        m = Move.AB pos (pos + 1 - 8)) := by
  simp [pawnMovesWhite, Move.new_ab, mem_ite_singleton_iff, mem_ite_ite_singleton_iff,
    Board.WHITE_PAWN_RANK, List.mem_append, or_assoc]

/-- Membership in the black pawn move list, spelled out as the four push
conditions of the source. -/
lemma mem_pawnMovesBlack_iff (pos color : Nat) (board : Board) (m : Move) :
    m ∈ pawnMovesBlack pos color board ↔
      (board.get (pos + 8) = Piece.NO_PIECE ∧ m = Move.AB pos (pos + 8)) ∨
      ((8 ≤ pos ∧ pos ≤ 15) ∧ board.get (pos + 8 + 8) = Piece.NO_PIECE ∧
        m = Move.AB pos (pos + 8 + 8)) ∨
      (pos % 8 ≠ 0 ∧
        ((board.get (pos - 1 + 8) ≠ Piece.NO_PIECE ∧ (board.get (pos - 1 + 8)).color ≠ color) ∨
          board.en_passant_target = some (pos - 1 + 8)) ∧
        m = Move.AB pos (pos - 1 + 8)) ∨
      (pos % 8 ≠ 7 ∧
        ((board.get (pos + 1 + 8) ≠ Piece.NO_PIECE ∧ (board.get (pos + 1 + 8)).color ≠ color) ∨
          board.en_passant_target = some (pos + 1 + 8)) ∧
        m = Move.AB pos (pos + 1 + 8)) := by
  simp [pawnMovesBlack, Move.new_ab, mem_ite_singleton_iff, mem_ite_ite_singleton_iff,
    Board.BLACK_PAWN_RANK, List.mem_append, or_assoc]

/-- Claim C3: for a pawn of the moving side whose generation succeeded, a
move onto a diagonally-forward-adjacent square `c` that does not hold an
enemy piece is generated if and only if the board's en-passant target is
present and equals `c` — so the en-passant capture is generated exactly
when the target matches one of the pawn's two diagonal-forward squares
(squares that lie on the board without wrapping across the a/h file edge,
per `diagForward`). -/
theorem c3_en_passant_iff (board : Board) (piece : Piece) (color pos c : Nat) (ms : List Move)
    (hk : piece.kind = Piece.PAWN)
    (hd : diagForward color pos c)
    (hne : ¬(board.get c ≠ Piece.NO_PIECE ∧ (board.get c).color ≠ color))
    (hgen : gen_pseudo_legal_for_piece piece color pos board = some ms) :
    Move.AB pos c ∈ ms ↔ board.en_passant_target = some c := by
  unfold gen_pseudo_legal_for_piece at hgen
  rw [if_pos hk] at hgen
  by_cases hbr : (Board.WHITE_BACK_RANK pos || Board.BLACK_BACK_RANK pos) = true
  · rw [if_pos hbr] at hgen
    exact Option.noConfusion hgen
  · rw [if_neg hbr] at hgen
    simp only [Board.WHITE_BACK_RANK, Board.BLACK_BACK_RANK, Bool.or_eq_true,
      decide_eq_true_eq, not_or, Bool.and_eq_true] at hbr
    have h8 : 8 ≤ pos := by omega
    by_cases hw : color = Piece.WHITE
    · rw [if_pos hw] at hgen
      injection hgen with hgen
      subst hgen
      rw [diagForward, if_pos hw] at hd
      rw [mem_pawnMovesWhite_iff]
      rcases hd with ⟨hf, hc⟩ | ⟨hf, hc⟩
      · subst hc
        constructor
        · rintro (⟨hs, he⟩ | ⟨hrk, hs, he⟩ | ⟨h1, hcond, he⟩ | ⟨h1, hcond, he⟩)
          · injection he with h1 h2; omega
          · injection he with h1 h2; omega
          · rcases hcond with henemy | heps
            · exact absurd henemy hne
            · exact heps
          · injection he with h1 h2; omega
        · intro heps
          exact Or.inr (Or.inr (Or.inl ⟨hf, Or.inr heps, rfl⟩))
      · subst hc
        constructor
        · rintro (⟨hs, he⟩ | ⟨hrk, hs, he⟩ | ⟨h1, hcond, he⟩ | ⟨h1, hcond, he⟩)
          · injection he with h1 h2; omega
          · injection he with h1 h2; omega
          · injection he with h1 h2; omega
          · rcases hcond with henemy | heps
            · exact absurd henemy hne
            · exact heps
        · intro heps
          exact Or.inr (Or.inr (Or.inr ⟨hf, Or.inr heps, rfl⟩))
    · rw [if_neg hw] at hgen
      injection hgen with hgen
      subst hgen
      rw [diagForward, if_neg hw] at hd
      rw [mem_pawnMovesBlack_iff]
      rcases hd with ⟨hf, hc⟩ | ⟨hf, hc⟩
      · subst hc
        constructor
        · rintro (⟨hs, he⟩ | ⟨hrk, hs, he⟩ | ⟨h1, hcond, he⟩ | ⟨h1, hcond, he⟩)
          · injection he with h1 h2; omega
          · injection he with h1 h2; omega
          · rcases hcond with henemy | heps
            · exact absurd henemy hne
            · exact heps
          · injection he with h1 h2; omega
        · intro heps
          exact Or.inr (Or.inr (Or.inl ⟨hf, Or.inr heps, rfl⟩))
      · subst hc
        constructor
        · rintro (⟨hs, he⟩ | ⟨hrk, hs, he⟩ | ⟨h1, hcond, he⟩ | ⟨h1, hcond, he⟩)
          · injection he with h1 h2; omega
          · injection he with h1 h2; omega
          · injection he with h1 h2; omega
          · rcases hcond with henemy | heps
            · exact absurd henemy hne
            · exact heps
        · intro heps
          exact Or.inr (Or.inr (Or.inr ⟨hf, Or.inr heps, rfl⟩))

/-- Witness for C3: on the fixture board with the white pawn on b2 and
en-passant target a3, the generated pawn list is exactly the two pushes
plus the en-passant capture b2xa3, and the theorem places that capture in
the list from the matching target. -/
theorem c3_en_passant_iff_witness :
    Move.AB 49 40 ∈ [Move.AB 49 41, Move.AB 49 33, Move.AB 49 40] :=
  (c3_en_passant_iff epBoard49 ⟨Piece.WHITE ||| Piece.PAWN⟩ Piece.WHITE 49 40
    [Move.AB 49 41, Move.AB 49 33, Move.AB 49 40]
    (by decide) (by decide) (by decide) (by decide)).mpr (by decide)

lemma fenCharStep_digit (c : Char) (index : Nat) (h48 : 48 ≤ c.toNat) (h56 : c.toNat ≤ 56) :
    fenCharStep c index =
      if c.toNat - 48 > 8 - index % 8 then
        .fail "there are not that many empty fields left in the current rank!"
      else .advance (index + (c.toNat - 48)) := by
  have hP : c ≠ 'P' := by rintro rfl; revert h56; decide
  have hN : c ≠ 'N' := by rintro rfl; revert h56; decide
  have hB : c ≠ 'B' := by rintro rfl; revert h56; decide
  have hR : c ≠ 'R' := by rintro rfl; revert h56; decide
  have hQ : c ≠ 'Q' := by rintro rfl; revert h56; decide
  have hK : c ≠ 'K' := by rintro rfl; revert h56; decide
  have hp2 : c ≠ 'p' := by rintro rfl; revert h56; decide
  have hn2 : c ≠ 'n' := by rintro rfl; revert h56; decide
  have hb2 : c ≠ 'b' := by rintro rfl; revert h56; decide
  have hr2 : c ≠ 'r' := by rintro rfl; revert h56; decide
  have hq2 : c ≠ 'q' := by rintro rfl; revert h56; decide
  have hk2 : c ≠ 'k' := by rintro rfl; revert h56; decide
  unfold fenCharStep
  rw [if_neg hP, if_neg hN, if_neg hB, if_neg hR, if_neg hQ, if_neg hK, if_neg hp2,
    if_neg hn2, if_neg hb2, if_neg hr2, if_neg hq2, if_neg hk2, if_pos ⟨h48, h56⟩]
  rfl

lemma fenCharStep_slash (index : Nat) :
    fenCharStep '/' index =
      if index % 8 ≠ 0 then .fail "rank not yet done at rank delimiter"
      else .advance index := rfl

lemma fenCharStep_other (c : Char) (index : Nat)
    (hletters : c ∉ (['P', 'N', 'B', 'R', 'Q', 'K', 'p', 'n', 'b', 'r', 'q', 'k'] : List Char))
    (hdig : ¬(48 ≤ c.toNat ∧ c.toNat ≤ 56)) (hsl : c ≠ '/') :
    fenCharStep c index = .fail "unexpected character in position field!" := by
  simp only [List.mem_cons, List.not_mem_nil, or_false, not_or] at hletters
  obtain ⟨hP, hN, hB, hR, hQ, hK, hp2, hn2, hb2, hr2, hq2, hk2⟩ := hletters
  unfold fenCharStep
  rw [if_neg hP, if_neg hN, if_neg hB, if_neg hR, if_neg hQ, if_neg hK, if_neg hp2,
    if_neg hn2, if_neg hb2, if_neg hr2, if_neg hq2, if_neg hk2, if_neg hdig, if_neg hsl]

/-- Claim C6 as amended: the placement loop accepts the twelve piece
letters, the rank separator `/`, and run-length digits 0 through 8 (not
only 1 through 8 — the radix-9 digit test also admits `0`, which advances
the index by zero): a digit `n` is accepted exactly when
`n ≤ 8 − (index mod 8)`, advancing the running index by `n`, and errors
otherwise; a `/` at an index that is not a multiple of 8 errors, and
otherwise continues unchanged; and any character outside the piece
letters, the digits 0–8 and `/` errors. -/
theorem c6_placement_step_amended (index : Nat) (pieces : List Piece) (rest : List Char)
    (c : Char) :
    ((48 ≤ c.toNat ∧ c.toNat ≤ 56) →
      ((c.toNat - 48 ≤ 8 - index % 8 →
         parseFenLoop (c :: rest) index pieces =
           parseFenLoop rest (index + (c.toNat - 48)) pieces) ∧
       (c.toNat - 48 > 8 - index % 8 →
         parseFenLoop (c :: rest) index pieces =
           .err "there are not that many empty fields left in the current rank!"))) ∧
    (index % 8 ≠ 0 →
      parseFenLoop ('/' :: rest) index pieces =
        .err "rank not yet done at rank delimiter") ∧
    (index % 8 = 0 →
      parseFenLoop ('/' :: rest) index pieces = parseFenLoop rest index pieces) ∧
    (c ∉ (['P', 'N', 'B', 'R', 'Q', 'K', 'p', 'n', 'b', 'r', 'q', 'k'] : List Char) →
      ¬(48 ≤ c.toNat ∧ c.toNat ≤ 56) → c ≠ '/' →
      parseFenLoop (c :: rest) index pieces =
        .err "unexpected character in position field!") := by
  refine ⟨?_, ?_, ?_, ?_⟩
  · rintro ⟨h48, h56⟩
    have hstep := fenCharStep_digit c index h48 h56
    constructor
    · intro hle
      simp only [parseFenLoop, hstep, if_neg (show ¬(c.toNat - 48 > 8 - index % 8) by omega)]
    · intro hgt
      simp only [parseFenLoop, hstep, if_pos hgt]
  · intro hnz
    simp only [parseFenLoop, fenCharStep_slash, if_pos hnz]
  · intro hz
    simp only [parseFenLoop, fenCharStep_slash,
      if_neg (show ¬(index % 8 ≠ 0) from fun hx => hx hz)]
  · intro h1 h2 h3
    simp only [parseFenLoop, fenCharStep_other c index h1 h2 h3]

/-- Witness for C6's amended statement: the digit `3` at index 0 advances
the running index by three. -/
theorem c6_placement_step_amended_witness :
    parseFenLoop ['3'] 0 [] = parseFenLoop [] (0 + ('3'.toNat - 48)) [] :=
  ((c6_placement_step_amended 0 [] [] '3').1 (by decide)).1 (by decide)

end Chessica
